import Mathlib

/-
Verification of the impedance respiratory-monitoring pipeline.

Shallow embedding of the signal-processing core (TimeValueSample.py and
DataProcessor.py) over exact rationals.  Sample timestamps and values are
modelled as rationals; the numpy helpers used by the source (mean, population
variance, linspace) are given their exact-arithmetic definitions.  Callers in
the source only apply mean/variance to nonempty collections, and the theorems
below restrict to such inputs where it matters.
-/

namespace Impedance

/-- Decidable equality for Except results, used to evaluate the embedded
fallible operations on concrete inputs. -/
instance {ε α : Type} [DecidableEq ε] [DecidableEq α] : DecidableEq (Except ε α) :=
  fun a b =>
  match a, b with
  | .ok x, .ok y =>
    if h : x = y then isTrue (congrArg Except.ok h)
    else isFalse (fun hc => h (Except.ok.inj hc))
  | .error x, .error y =>
    if h : x = y then isTrue (congrArg Except.error h)
    else isFalse (fun hc => h (Except.error.inj hc))
  | .ok _, .error _ => isFalse Except.noConfusion
  | .error _, .ok _ => isFalse Except.noConfusion

/-- Rounding as performed by the Python builtin round(): round half to even
(banker rounding), which numpy also uses for .5 ties on exact values. -/
def pyRound (x : ℚ) : ℤ :=
  let n := ⌊x⌋
  let frac := x - n
  if frac < 1/2 then n
  else if 1/2 < frac then n + 1
  else if n % 2 = 0 then n else n + 1

/-- numpy.mean / numpy.average.  The source only applies it to nonempty
arrays (an empty array would give nan in numpy). -/
def average (l : List ℚ) : ℚ := l.sum / (l.length : ℚ)

/-- numpy.var: population variance (mean of squared deviations). -/
def npVar (l : List ℚ) : ℚ := average (l.map (fun x => (x - average l) ^ 2))

/-- numpy.linspace with endpoint=True: n points from a to b inclusive.
For n = 1 numpy returns [a]; here the division by zero in the rationals
also yields a + 0 = a, so no special case is needed. -/
def linspace (a b : ℚ) (n : ℕ) : List ℚ :=
  (List.range n).map (fun i => a + (b - a) * (i : ℚ) / ((n : ℚ) - 1))

/-- TimeValueSample.py line 8: immutable (timestamp, value) pair. -/
structure TimeValueSample where
  t : ℚ
  v : ℚ
deriving DecidableEq

/-- TimeValueSample.copy_with (TimeValueSample.py lines 16-17):
`new_time if new_time else self.t` uses Python truthiness, so None and 0
both fall back to the field of the receiver. -/
def TimeValueSample.copy_with (s : TimeValueSample)
    (new_time new_value : Option ℚ) : TimeValueSample :=
  { t := match new_time with
         | some x => if x = 0 then s.t else x
         | none => s.t
    v := match new_value with
         | some x => if x = 0 then s.v else x
         | none => s.v }

/-- Python truthiness of an optional float argument: None and 0.0 are falsy. -/
def truthyQ (o : Option ℚ) : Bool :=
  match o with
  | none => false
  | some x => decide (x ≠ 0)

/-- TimeValueSampleQueue (TimeValueSample.py lines 20-54): a deque of samples
plus the configured duration and the filled flag. -/
structure TimeValueSampleQueue where
  duration : ℚ
  queue : List TimeValueSample
  filled : Bool
deriving DecidableEq

/-- Timestamp of the first queued sample (queue[0].t); 0 for an empty queue,
which the source never queries. -/
def headT (q : List TimeValueSample) : ℚ :=
  match q.head? with
  | some s => s.t
  | none => 0

/-- Timestamp of the last queued sample (queue[-1].t); 0 for an empty queue,
which the source never queries. -/
def lastT (q : List TimeValueSample) : ℚ :=
  match q.getLast? with
  | some s => s.t
  | none => 0

/-- The eviction loop of push (TimeValueSample.py lines 43-45):
while the span exceeds duration, pop from the left and set filled. -/
def evict (duration : ℚ) : List TimeValueSample → Bool → List TimeValueSample × Bool
  | [], filled => ([], filled)
  | s :: rest, filled =>
    if lastT (s :: rest) - s.t > duration then evict duration rest true
    else (s :: rest, filled)

/-- TimeValueSampleQueue.push (TimeValueSample.py lines 33-45).  A sample with
a non-increasing timestamp trips the assert unless ignore_out_of_order_samples
is set, in which case the sample is replaced by None and nothing happens. -/
def TimeValueSampleQueue.push (st : TimeValueSampleQueue) (sample : TimeValueSample)
    (ignore_out_of_order_samples : Bool) : Except String TimeValueSampleQueue :=
  let out_of_order : Bool := !st.queue.isEmpty && decide (sample.t ≤ lastT st.queue)
  if out_of_order && ignore_out_of_order_samples then .ok st
  else if out_of_order then .error "Samples are not monotonically increasing in time"
  else
    let p := evict st.duration (st.queue ++ [sample]) st.filled
    .ok { duration := st.duration, queue := p.1, filled := p.2 }

/-- TimeValueSampleQueue.clear (TimeValueSample.py lines 47-50). -/
def TimeValueSampleQueue.clearAll (st : TimeValueSampleQueue) : TimeValueSampleQueue :=
  { duration := st.duration, queue := [], filled := false }

/-- A freshly constructed queue (TimeValueSample.py lines 28-31). -/
def initQueue (duration : ℚ) : TimeValueSampleQueue :=
  { duration := duration, queue := [], filled := false }

/-- One externally visible operation on a TimeValueSampleQueue. -/
inductive QueueOp where
  | push (sample : TimeValueSample) (ignore : Bool)
  | clearOp
deriving DecidableEq

/-- Apply one operation to a queue state. -/
def applyOp (st : TimeValueSampleQueue) : QueueOp → Except String TimeValueSampleQueue
  | .push s ig => st.push s ig
  | .clearOp => .ok st.clearAll

/-- Run a list of operations from a state, stopping at the first failure. -/
def runOps (st : TimeValueSampleQueue) : List QueueOp → Except String TimeValueSampleQueue
  | [] => .ok st
  | op :: ops =>
    match applyOp st op with
    | .ok st2 => runOps st2 ops
    | .error e => .error e

/-- Whether a (successful, non-discarded) push evicts at least one sample:
strictly fewer samples remain than were present plus the pushed one.  This is
the observable meaning of "an eviction has occurred" used to state C8. -/
def pushEvicted (st : TimeValueSampleQueue) (sample : TimeValueSample) : Bool :=
  let out_of_order : Bool := !st.queue.isEmpty && decide (sample.t ≤ lastT st.queue)
  if out_of_order then false
  else decide ((evict st.duration (st.queue ++ [sample]) st.filled).1.length
                < st.queue.length + 1)

/-- Tracked boolean for C8: true iff some eviction has occurred since the
last clear (or since construction). -/
def trackOp (st : TimeValueSampleQueue) (b : Bool) : QueueOp → Bool
  | .push s _ => b || pushEvicted st s
  | .clearOp => false

/-- Run a list of operations while tracking whether an eviction has occurred
since the last clear (or construction). -/
def runOpsTracked (st : TimeValueSampleQueue) (b : Bool) :
    List QueueOp → Except String (TimeValueSampleQueue × Bool)
  | [] => .ok (st, b)
  | op :: ops =>
    match applyOp st op with
    | .ok st2 => runOpsTracked st2 (trackOp st b op) ops
    | .error e => .error e

/-- Which branch copy_samples (TimeValueSample.py lines 56-108) produces its
result through.  plainCopy carries the unresampled list returned at line 68;
the slow branch (lines 88-102) feeds the values through scipy FFT resampling;
the fast branch (lines 103-106) relabels timestamps and keeps values. -/
inductive CopyPath where
  | plainCopy (samples : List TimeValueSample)
  | fastRelabel
  | slowResample
deriving DecidableEq

/-- Largest element of a rational list (numpy.amax); 0 on the empty list,
which the source never reaches here. -/
def listMax : List ℚ → ℚ
  | [] => 0
  | x :: xs => xs.foldl max x

/-- The `resample` flag as computed by copy_samples lines 70-84: it stays true
unless the aligned grid has as many points as the queue and, after the mean
offset is removed, the maximum residual is below
desired_period * resample_threshold_proportion.  Note that line 81 reassigns
aligned_times to times minus the mean error, so the residual vector compared
at line 82 is constant. -/
def resampleFlag (queue : List TimeValueSample) (desired_period rtp : ℚ) : Bool :=
  let start_time := headT queue
  let stop_time := lastT queue
  let num_samples := (pyRound ((stop_time - start_time) / desired_period) + 1).toNat
  let times := queue.map (fun s => s.t)
  let aligned_times := linspace start_time stop_time num_samples
  if aligned_times.length = queue.length then
    let average_error := average (List.zipWith (fun a b => a - b) aligned_times times)
    let aligned_times2 := times.map (fun x => x - average_error)
    let max_error := listMax (List.zipWith (fun a b => a - b) aligned_times2 times)
    !decide (max_error < desired_period * rtp)
  else true

/-- The control flow of copy_samples (TimeValueSample.py lines 56-88 and 103):
the assert at line 64 (which passes for desired_period = 0 because 0 is falsy),
the early plain-copy return at lines 67-68, and the branch at line 88, whose
condition is literally `resample or True`. -/
def copySamplesPath (queue : List TimeValueSample) (desired_period : Option ℚ)
    (rtp : ℚ) : Except String CopyPath :=
  if truthyQ desired_period && !decide (0 < desired_period.getD 0) then
    .error "desired_period cannot be negative"
  else if !truthyQ desired_period || queue.isEmpty then
    .ok (.plainCopy queue)
  else if resampleFlag queue (desired_period.getD 0) rtp || true then
    .ok .slowResample
  else .ok .fastRelabel

/-- The metadata-alignment loop of the resampling branch (TimeValueSample.py
lines 93-102).  Its input pairs (v, t) are the zipped output of
scipy.signal.resample(values, num_samples, times); the loop culls originals
older than t - desired_period/2 and, when the head original lies within half a
period of t, reuses it through copy_with t v. -/
def alignResampled (desired_period : ℚ) :
    List (ℚ × ℚ) → List TimeValueSample → List TimeValueSample
  | [], _ => []
  | (v, t) :: rest, queue =>
    let culled := queue.dropWhile (fun s => decide (s.t < t - desired_period / 2))
    match culled with
    | q0 :: qrest =>
      if q0.t < t + desired_period / 2 then
        q0.copy_with (some t) (some v) :: alignResampled desired_period rest qrest
      else
        ⟨t, v⟩ :: alignResampled desired_period rest (q0 :: qrest)
    | [] => ⟨t, v⟩ :: alignResampled desired_period rest []

/-- RespiratoryCycleData (DataProcessor.py lines 26-33). -/
structure RespiratoryCycleData where
  the_min : ℚ
  the_max : ℚ
  min_percentile : ℚ
  max_percentile : ℚ
  timestamp : ℚ
  cycle_duration : ℚ
deriving DecidableEq

/-- RespiratoryCycleData.is_timestamp_coincident (DataProcessor.py lines
35-41): the two start timestamps differ by less than half the cycle duration of the receiver. -/
def RespiratoryCycleData.is_timestamp_coincident (d : RespiratoryCycleData)
    (timestamp : ℚ) : Bool :=
  decide (|d.timestamp - timestamp| < d.cycle_duration / 2)

/-- DataProcessor.MAX_RESPIRATORY_CYCLE_DATA_TO_KEEP (DataProcessor.py line 56). -/
def MAX_RESPIRATORY_CYCLE_DATA_TO_KEEP : ℕ := 15

/-- The trim loop of store_data_for_new_slice (DataProcessor.py lines
184-185): pop from the front while more than the maximum is retained. -/
def trimExcess : List RespiratoryCycleData → List RespiratoryCycleData
  | [] => []
  | d :: rest =>
    if MAX_RESPIRATORY_CYCLE_DATA_TO_KEEP < (d :: rest).length then trimExcess rest
    else d :: rest

/-- The deduplication-and-store step applied to one segmented candidate cycle
(DataProcessor.py lines 144-151 together with the append and trim of
store_data_for_new_slice, lines 163-185, omitting only the debug graphing):
scan the existing history from newest to oldest; if any entry is coincident
with the candidate timestamp, keep the history unchanged; otherwise append
the candidate and trim from the front. -/
def storeCandidate (history : List RespiratoryCycleData)
    (cand : RespiratoryCycleData) : List RespiratoryCycleData :=
  if history.reverse.any (fun d => d.is_timestamp_coincident cand.timestamp) then
    history
  else trimExcess (history ++ [cand])

/-- The slice of history used as the VAE baseline
(DataProcessor.py line 197): respiratory_cycle_data[-10:-1], i.e. drop all
but the last 10 entries, then drop the final (current) entry. -/
def vaeRecentData (h : List RespiratoryCycleData) : List RespiratoryCycleData :=
  (h.drop (h.length - 10)).dropLast

/-- The VAE-score computation of calculate_scores (DataProcessor.py lines
189-212): only when more than 2 entries exist and both the 5th- and
95th-percentile values of the current entry rose above the baseline means
are points awarded. -/
def vaeScoreOf (h : List RespiratoryCycleData) : ℤ :=
  if 2 < h.length then
    match h.getLast? with
    | none => 0
    | some current_data =>
      let recent := vaeRecentData h
      let average_min_percentile := average (recent.map (fun d => d.min_percentile))
      let average_max_percentile := average (recent.map (fun d => d.max_percentile))
      let min_increase := current_data.min_percentile - average_min_percentile
      let max_increase := current_data.max_percentile - average_max_percentile
      if 0 < min_increase ∧ 0 < max_increase then
        let base := pyRound ((min_increase + max_increase) / 10 * 50)
        let r1 := max_increase / min_increase
        let r2 := if 1 < r1 then 1 / r1 else r1
        base + pyRound (max (1 - r2) 0 * 50)
      else 0
  else 0

/-- The SQI computation of calculate_scores (DataProcessor.py lines 214-248).
period is detected_respiratory_period_length (None when no cycle is tracked;
tested by Python truthiness at line 215); first_time is
first_detected_respiratory_cycle_time, which in the source is always set when
the branch is taken.  sqi_alarm is the local flag of line 191.  Line 218 adds
a float (true division), line 222 adds round(max(time_tracking / 6, 20)). -/
def sqiOf (h : List RespiratoryCycleData) (period : Option ℚ) (first_time : ℚ)
    (sqi_alarm : Bool) : ℚ :=
  if truthyQ period && !h.isEmpty then
    let s1 : ℚ := min ((h.length : ℚ) * 50 / 10) 50
    let time_tracking := (match h.getLast? with
                          | some d => d.timestamp
                          | none => 0) - first_time
    let s2 : ℚ := (pyRound (max (time_tracking / 6) 20) : ℚ)
    let min_percentiles := h.map (fun d => d.min_percentile)
    let max_percentiles := h.map (fun d => d.max_percentile)
    let percentile_variances := npVar min_percentiles + npVar max_percentiles
    let percentile_sqi_component := max (1 - percentile_variances / 10) 0 * 10
    let mins := h.map (fun d => d.the_min)
    let maxs := h.map (fun d => d.the_max)
    let absolute_variances := npVar mins + npVar maxs
    let absolute_sqi_component := max (1 - absolute_variances / 10) 0 * 5
    let tidal_volume_surrogate :=
      List.zipWith (fun a b => a - b) max_percentiles min_percentiles
    let tidal_volume_variance := npVar tidal_volume_surrogate
    let tidal_volume_variance_sqi_component := max (1 - tidal_volume_variance / 10) 0 * 15
    let aggregate := pyRound (percentile_sqi_component + absolute_sqi_component +
                              tidal_volume_variance_sqi_component)
    let aggregate2 := if sqi_alarm ∧ aggregate < 20 then aggregate + 10 else aggregate
    s1 + s2 + (aggregate2 : ℚ)
  else 0

/-- calculate_scores (DataProcessor.py lines 187-253) as a function of the
instance state it reads: the cycle history, the detected period (None when not
tracking) and the first-detection time.  Returns (vae_score, sqi, sqi_alarm).
sqi_alarm is initialized False at line 191 and is never assigned afterwards. -/
def calculate_scores (h : List RespiratoryCycleData) (period : Option ℚ)
    (first_time : ℚ) : ℤ × ℚ × Bool :=
  let sqi_alarm := false
  (vaeScoreOf h, sqiOf h period first_time sqi_alarm, sqi_alarm)

/-- First part of numpy.array_split(values, 2): the first ceil(n/2) values
(DataProcessor.py line 265). -/
def firstHalf (values : List ℚ) : List ℚ := values.take ((values.length + 1) / 2)

/-- Second part of numpy.array_split(values, 2): the last floor(n/2) values. -/
def secondHalf (values : List ℚ) : List ℚ := values.drop ((values.length + 1) / 2)

/-- The phase-search start fraction (DataProcessor.py lines 266-270):
0.5 when the first half has a lower average than the second, else 0. -/
def phaseStartFraction (values : List ℚ) : ℚ :=
  if average (firstHalf values) < average (secondHalf values) then 1/2 else 0

/-- The candidate phase-offset fractions (DataProcessor.py line 271):
numpy.linspace(start_fraction, start_fraction + 0.5, steps), endpoint
included. -/
def phaseCandidateFractions (values : List ℚ) (steps : ℕ) : List ℚ :=
  linspace (phaseStartFraction values) (phaseStartFraction values + 1/2) steps

/-- The integer offset for a candidate fraction (DataProcessor.py line 272):
round(period_length * offset_fraction). -/
def sliceOffset (period_length : ℕ) (frac : ℚ) : ℕ :=
  (pyRound ((period_length : ℚ) * frac)).toNat

/-- slice_values_into_periods (DataProcessor.py lines 281-292): cut
floor(len/period_length) consecutive complete slices starting at offset,
keeping only those that end within the values. -/
def slice_values_into_periods (values : List ℚ) (period_length offset : ℕ) :
    List (List ℚ) × List ℕ :=
  let num_slices := values.length / period_length
  let idx := (List.range num_slices).filterMap (fun i =>
    let start := i * period_length + offset
    if start + period_length ≤ values.length then some start else none)
  (idx.map (fun s => (values.drop s).take period_length), idx)

/-- The (slices, start_indexes) pair and its pooled variance for one candidate
fraction (DataProcessor.py lines 272-274; numpy.var over a list of equal
length slices flattens them). -/
def candidateResult (values : List ℚ) (period_length : ℕ) (frac : ℚ) :
    (List (List ℚ) × List ℕ) × ℚ :=
  let si := slice_values_into_periods values period_length (sliceOffset period_length frac)
  (si, npVar si.1.flatten)

/-- The loop body of the phase search (DataProcessor.py lines 271-278): keep
the incumbent unless the new candidate has strictly greater variance
(best_variance starts as None, so the first candidate is always adopted). -/
def pickBest {α : Type} (g : ℚ → α × ℚ) (best : Option (α × ℚ)) (frac : ℚ) :
    Option (α × ℚ) :=
  match best with
  | none => some (g frac)
  | some b => if (g frac).2 > b.2 then some (g frac) else some b

/-- find_period_slices_with_greatest_average_variance (DataProcessor.py lines
262-279): fold over the candidate fractions keeping the first candidate of
maximal pooled variance. -/
def find_period_slices_with_greatest_average_variance (values : List ℚ)
    (period_length : ℕ) (steps : ℕ := 5) : List (List ℚ) × List ℕ :=
  match (phaseCandidateFractions values steps).foldl
      (pickBest (candidateResult values period_length)) none with
  | some b => b.1
  | none => ([], [])

/-- Spec helper: the last n entries of a list. -/
def lastN (n : ℕ) (l : List RespiratoryCycleData) : List RespiratoryCycleData :=
  l.drop (l.length - n)

/-- Claim C6 reading of the VAE baseline slice, following the words of the
spec: exactly the 10 entries immediately preceding the most recent entry. -/
def claimedVaeRecentTen (h : List RespiratoryCycleData) : List RespiratoryCycleData :=
  lastN 10 h.dropLast

/-- Claim C6 reading of the VAE score: identical to vaeScoreOf except that
the baseline slice is the 10 entries immediately preceding the most recent. -/
def claimedVaeScoreTen (h : List RespiratoryCycleData) : ℤ :=
  if 2 < h.length then
    match h.getLast? with
    | none => 0
    | some current_data =>
      let recent := claimedVaeRecentTen h
      let average_min_percentile := average (recent.map (fun d => d.min_percentile))
      let average_max_percentile := average (recent.map (fun d => d.max_percentile))
      let min_increase := current_data.min_percentile - average_min_percentile
      let max_increase := current_data.max_percentile - average_max_percentile
      if 0 < min_increase ∧ 0 < max_increase then
        let base := pyRound ((min_increase + max_increase) / 10 * 50)
        let r1 := max_increase / min_increase
        let r2 := if 1 < r1 then 1 / r1 else r1
        base + pyRound (max (1 - r2) 0 * 50)
      else 0
  else 0

/-- Concrete history exhibiting unclamped scores for C1: two quiet baseline
cycles followed by a current cycle whose percentile values rose by 20 Ohms
and whose timestamp is 1200 seconds after first detection. -/
def c1History : List RespiratoryCycleData :=
  [⟨0, 0, 0, 0, 0, 4⟩, ⟨0, 0, 0, 0, 4, 4⟩, ⟨0, 0, 20, 20, 1200, 4⟩]

/-- Concrete 11-entry history for C6: the oldest entry has distinctive
percentiles 110, the nine middle entries 0, the current entry 5. -/
def c6History : List RespiratoryCycleData :=
  [⟨0, 0, 110, 110, 0, 4⟩,
   ⟨0, 0, 0, 0, 4, 4⟩, ⟨0, 0, 0, 0, 8, 4⟩, ⟨0, 0, 0, 0, 12, 4⟩,
   ⟨0, 0, 0, 0, 16, 4⟩, ⟨0, 0, 0, 0, 20, 4⟩, ⟨0, 0, 0, 0, 24, 4⟩,
   ⟨0, 0, 0, 0, 28, 4⟩, ⟨0, 0, 0, 0, 32, 4⟩, ⟨0, 0, 0, 0, 36, 4⟩,
   ⟨0, 0, 5, 5, 40, 4⟩]

/-- Concrete perfectly uniform queue (period 1, zero jitter) for C3. -/
def c3Queue : List TimeValueSample := [⟨0, 1⟩, ⟨1, 2⟩, ⟨2, 3⟩]

/-- dropLast commutes with drop. -/
theorem dropLast_drop_comm {α : Type} (l : List α) :
    ∀ k, (l.drop k).dropLast = l.dropLast.drop k := by
  induction l with
  | nil => intro k; simp
  | cons a tl ih =>
    intro k
    cases k with
    | zero => simp
    | succ k =>
      rw [List.drop_succ_cons, ih k]
      cases tl with
      | nil => simp
      | cons b tl2 => rfl

/-- Trimming from the front preserves the last element. -/
theorem trimExcess_getLast? :
    ∀ l : List RespiratoryCycleData, (trimExcess l).getLast? = l.getLast? := by
  intro l
  induction l with
  | nil => rfl
  | cons d rest ih =>
    rw [trimExcess]
    split
    · next hlen =>
      rw [ih]
      cases rest with
      | nil => simp [MAX_RESPIRATORY_CYCLE_DATA_TO_KEEP] at hlen
      | cons e rest2 => rw [List.getLast?_cons_cons]
    · rfl

/-- Once the eviction loop has set the filled flag it stays set. -/
theorem evict_snd_true (d : ℚ) :
    ∀ q : List TimeValueSample, (evict d q true).2 = true := by
  intro q
  induction q with
  | nil => rfl
  | cons s rest ih =>
    rw [evict]
    split
    · exact ih
    · rfl

/-- The eviction loop only removes samples. -/
theorem evict_length_le (d : ℚ) :
    ∀ (q : List TimeValueSample) (f : Bool), (evict d q f).1.length ≤ q.length := by
  intro q
  induction q with
  | nil => intro f; simp [evict]
  | cons s rest ih =>
    intro f
    rw [evict]
    split
    · exact le_trans (ih true) (Nat.le_succ _)
    · exact le_refl _

/-- The filled flag after the eviction loop is the old flag joined with
whether the loop removed at least one sample. -/
theorem evict_snd_eq (d : ℚ) :
    ∀ (q : List TimeValueSample) (f : Bool),
      (evict d q f).2 = (f || decide ((evict d q f).1.length < q.length)) := by
  intro q
  induction q with
  | nil => intro f; simp [evict]
  | cons s rest ih =>
    intro f
    rw [evict]
    split
    · rw [evict_snd_true]
      have hlt : (evict d rest true).1.length < (s :: rest).length :=
        lt_of_le_of_lt (evict_length_le d rest true) (Nat.lt_succ_self _)
      simp only [List.length_cons] at hlt
      simp [hlt]
    · simp

/-- After the eviction loop, the result is empty or its span is bounded by
the duration. -/
theorem evict_spanOK (d : ℚ) :
    ∀ (q : List TimeValueSample) (f : Bool),
      (evict d q f).1 = [] ∨ lastT (evict d q f).1 - headT (evict d q f).1 ≤ d := by
  intro q
  induction q with
  | nil => intro f; exact Or.inl rfl
  | cons s rest ih =>
    intro f
    rw [evict]
    split
    · exact ih true
    · next hc =>
      right
      have : headT (s :: rest) = s.t := rfl
      rw [this]
      exact le_of_not_lt (fun hlt => hc hlt)

/-- The span bound is preserved by a successful push. -/
theorem push_spanOK {st st2 : TimeValueSampleQueue} {s : TimeValueSample} {ig : Bool}
    (hspan : st.queue = [] ∨ lastT st.queue - headT st.queue ≤ st.duration)
    (h : st.push s ig = .ok st2) :
    st2.queue = [] ∨ lastT st2.queue - headT st2.queue ≤ st2.duration := by
  unfold TimeValueSampleQueue.push at h
  by_cases hooo : (!st.queue.isEmpty && decide (s.t ≤ lastT st.queue)) = true
  · rw [hooo] at h
    cases ig with
    | true => simp at h; rw [← h]; exact hspan
    | false => simp at h
  · rw [Bool.not_eq_true] at hooo
    rw [hooo] at h
    simp at h
    rw [← h]
    exact evict_spanOK st.duration (st.queue ++ [s]) st.filled

/-- After a successful push, the filled flag is the old flag joined with
whether this push evicted a sample. -/
theorem push_filled {st st2 : TimeValueSampleQueue} {s : TimeValueSample} {ig : Bool}
    (h : st.push s ig = .ok st2) :
    st2.filled = (st.filled || pushEvicted st s) := by
  unfold TimeValueSampleQueue.push at h
  unfold pushEvicted
  by_cases hooo : (!st.queue.isEmpty && decide (s.t ≤ lastT st.queue)) = true
  · rw [hooo] at h ⊢
    cases ig with
    | true => simp at h; rw [← h]; simp
    | false => simp at h
  · rw [Bool.not_eq_true] at hooo
    rw [hooo] at h ⊢
    simp at h
    rw [← h]
    simp only [Bool.if_false_left, Bool.not_false, Bool.if_true_left]
    have := evict_snd_eq st.duration (st.queue ++ [s]) st.filled
    rw [List.length_append] at this
    simpa using this

/-- One operation preserves the span bound. -/
theorem applyOp_spanOK {st st2 : TimeValueSampleQueue} {op : QueueOp}
    (hspan : st.queue = [] ∨ lastT st.queue - headT st.queue ≤ st.duration)
    (h : applyOp st op = .ok st2) :
    st2.queue = [] ∨ lastT st2.queue - headT st2.queue ≤ st2.duration := by
  cases op with
  | push s ig => exact push_spanOK hspan h
  | clearOp =>
    simp [applyOp] at h
    rw [← h]
    exact Or.inl rfl

/-- One operation updates the filled flag exactly like the tracked boolean. -/
theorem applyOp_filled {st st2 : TimeValueSampleQueue} {op : QueueOp}
    (h : applyOp st op = .ok st2) :
    st2.filled = trackOp st st.filled op := by
  cases op with
  | push s ig => exact push_filled h
  | clearOp =>
    simp [applyOp] at h
    rw [← h]
    rfl

/-- Running a trace preserves the span bound and keeps the filled flag equal
to the tracked eviction-since-last-clear boolean. -/
theorem runOps_tracked_correct (ops : List QueueOp) :
    ∀ (st : TimeValueSampleQueue) (b : Bool) (st2 : TimeValueSampleQueue),
      (st.queue = [] ∨ lastT st.queue - headT st.queue ≤ st.duration) →
      st.filled = b →
      runOps st ops = .ok st2 →
      (st2.queue = [] ∨ lastT st2.queue - headT st2.queue ≤ st2.duration) ∧
      runOpsTracked st b ops = .ok (st2, st2.filled) := by
  induction ops with
  | nil =>
    intro st b st2 hspan hb h
    rw [runOps] at h
    cases h
    exact ⟨hspan, by rw [runOpsTracked, hb]⟩
  | cons op ops ih =>
    intro st b st2 hspan hb h
    rw [runOps] at h
    rw [runOpsTracked]
    cases happly : applyOp st op with
    | error e => rw [happly] at h; cases h
    | ok st1 =>
      rw [happly] at h
      have hspan1 := applyOp_spanOK hspan happly
      have hfil : st1.filled = trackOp st b op := by
        rw [applyOp_filled happly, hb]
      exact ih st1 (trackOp st b op) st2 hspan1 hfil h

/-- Folding the phase-search body from a some state never returns none. -/
theorem foldl_pickBest_some {α : Type} (g : ℚ → α × ℚ) :
    ∀ (l : List ℚ) (b : α × ℚ),
      l.foldl (pickBest g) (some b) =
        some (l.foldl (fun bb f => if (g f).2 > bb.2 then g f else bb) b) := by
  intro l
  induction l with
  | nil => intro b; rfl
  | cons f rest ih =>
    intro b
    rw [List.foldl_cons, List.foldl_cons]
    have hstep : pickBest g (some b) f =
        some (if (g f).2 > b.2 then g f else b) := by
      rw [pickBest]
      split <;> rfl
    rw [hstep]
    exact ih _

/-- The plain fold keeps an element of maximal measure: the result is the
start or one of the visited candidates, and it dominates all of them. -/
theorem foldl_best_spec {α : Type} (g : ℚ → α × ℚ) :
    ∀ (l : List ℚ) (b : α × ℚ),
      (l.foldl (fun bb f => if (g f).2 > bb.2 then g f else bb) b = b ∨
       ∃ f ∈ l, l.foldl (fun bb f => if (g f).2 > bb.2 then g f else bb) b = g f) ∧
      b.2 ≤ (l.foldl (fun bb f => if (g f).2 > bb.2 then g f else bb) b).2 ∧
      ∀ f ∈ l, (g f).2 ≤ (l.foldl (fun bb f => if (g f).2 > bb.2 then g f else bb) b).2 := by
  intro l
  induction l with
  | nil =>
    intro b
    refine ⟨Or.inl rfl, le_refl _, ?_⟩
    intro f hf
    cases hf
  | cons f0 rest ih =>
    intro b
    rw [List.foldl_cons]
    have hb2 : b.2 ≤ (if (g f0).2 > b.2 then g f0 else b).2 := by
      split
      · next hgt => exact le_of_lt hgt
      · exact le_refl _
    have hg2 : (g f0).2 ≤ (if (g f0).2 > b.2 then g f0 else b).2 := by
      split
      · exact le_refl _
      · next hng => exact le_of_not_lt hng
    have hcase : (if (g f0).2 > b.2 then g f0 else b) = b ∨
        (if (g f0).2 > b.2 then g f0 else b) = g f0 := by
      split
      · exact Or.inr rfl
      · exact Or.inl rfl
    obtain ⟨ih1, ih2, ih3⟩ := ih (if (g f0).2 > b.2 then g f0 else b)
    refine ⟨?_, le_trans hb2 ih2, ?_⟩
    · cases ih1 with
      | inl heq =>
        rw [heq]
        cases hcase with
        | inl hc => exact Or.inl hc
        | inr hc => exact Or.inr ⟨f0, List.mem_cons_self f0 rest, hc⟩
      | inr hex =>
        obtain ⟨f, hf, heq⟩ := hex
        exact Or.inr ⟨f, List.mem_cons_of_mem f0 hf, heq⟩
    · intro f hf
      cases List.mem_cons.mp hf with
      | inl heq => rw [heq]; exact le_trans hg2 ih2
      | inr hmem => exact ih3 f hmem

/-- C1: the claim states that every analysis pass leaves vaeScore and sqi in
[0, 100].  The code contains no clamping: on c1History (a paired percentile
rise of 20 Ohms and 1200 seconds of tracking) calculate_scores yields
vae_score = 200 and sqi = 235, both far above 100 (the sqi time bonus uses
max instead of min, so it is unbounded, and the vae magnitude term is never
capped). -/
theorem c1_scores_not_clamped :
    calculate_scores c1History (some 4) 0 = (200, 235, false) ∧
    ¬ ((calculate_scores c1History (some 4) 0).1 ≤ 100 ∧
       (calculate_scores c1History (some 4) 0).2.1 ≤ 100) := by
  have hval : calculate_scores c1History (some 4) 0 = (200, 235, false) := by
    norm_num [calculate_scores, vaeScoreOf, sqiOf, vaeRecentData, c1History,
      average, npVar, pyRound, truthyQ]
  refine ⟨hval, ?_⟩
  rw [hval]
  norm_num

/-- C2: the claim states that alarm becomes true when SQI and the VAE score
cross configured thresholds together.  In the code sqi_alarm is initialized
False and never assigned, so the alarm output of calculate_scores is false
for every history, period and tracking state, and no threshold comparison
exists. -/
theorem c2_alarm_always_false (h : List RespiratoryCycleData) (period : Option ℚ)
    (first_time : ℚ) :
    (calculate_scores h period first_time).2.2 = false := rfl

/-- C3: the claim states that a jitter-free input of matching count takes the
fast relabel path.  The branch condition at TimeValueSample.py line 88 is
`resample or True`, so the FFT resampling branch is taken for every non-empty
queue and positive desired period; the relabel branch is unreachable.  On the
perfectly uniform c3Queue the fast-path test itself passes (the resample flag
is false), yet the slow branch is still taken. -/
theorem c3_fast_path_unreachable :
    (∀ (q : List TimeValueSample) (d rtp : ℚ), 0 < d → q ≠ [] →
       copySamplesPath q (some d) rtp = .ok .slowResample) ∧
    resampleFlag c3Queue 1 (1/2) = false := by
  constructor
  · intro q d rtp hd hq
    have ht : truthyQ (some d) = true := by simp [truthyQ, ne_of_gt hd]
    have hd2 : decide (0 < (some d).getD 0) = true := by simp [hd]
    have hqe : q.isEmpty = false := by simp [List.isEmpty_iff, hq]
    rw [copySamplesPath, ht, hd2, hqe]
    simp
  · have htn : (3 : ℤ).toNat = 3 := rfl
    norm_num [resampleFlag, c3Queue, headT, lastT, linspace, average, listMax,
      pyRound, htn, List.range_succ]

/-- C3 witness: the fast-path-eligible uniform queue still goes through the
resampling branch. -/
theorem c3_witness :
    copySamplesPath c3Queue (some 1) (1/2) = .ok .slowResample ∧
    resampleFlag c3Queue 1 (1/2) = false :=
  ⟨c3_fast_path_unreachable.1 c3Queue 1 (1/2) (by norm_num) (by decide),
   c3_fast_path_unreachable.2⟩

/-- C5 counterexample: the claim states that every desiredPeriod <= 0,
including 0 exactly, fails fast.  With desired_period = 0 the assert at
TimeValueSample.py line 64 passes (0 is falsy) and copy_samples silently
returns the unresampled plain copy of the queue. -/
theorem c5_counterexample :
    copySamplesPath [⟨0, 5⟩] (some 0) (1/2) = .ok (.plainCopy [⟨0, 5⟩]) := by
  norm_num [copySamplesPath, truthyQ]

/-- C5 amended: a strictly negative desiredPeriod fails fast with the assert
error; desiredPeriod = 0 is treated as absent (Python falsiness) and the call
silently returns an unresampled copy of the queue instead of failing. -/
theorem c5_nonpositive_period :
    (∀ (q : List TimeValueSample) (d rtp : ℚ), d < 0 →
       copySamplesPath q (some d) rtp = .error "desired_period cannot be negative") ∧
    (∀ (q : List TimeValueSample) (rtp : ℚ),
       copySamplesPath q (some 0) rtp = .ok (.plainCopy q)) := by
  constructor
  · intro q d rtp hd
    have ht : truthyQ (some d) = true := by simp [truthyQ, ne_of_lt hd]
    have hd2 : decide (0 < (some d).getD 0) = false := by
      simp
      exact le_of_lt hd
    rw [copySamplesPath, ht, hd2]
    simp
  · intro q rtp
    have ht : truthyQ (some 0) = false := by simp [truthyQ]
    rw [copySamplesPath, ht]
    simp

/-- C5 witness: a negative period fails, a zero period silently succeeds. -/
theorem c5_witness :
    copySamplesPath [⟨0, 5⟩] (some (-1)) (1/2) =
      .error "desired_period cannot be negative" ∧
    copySamplesPath [⟨0, 5⟩] (some 0) (1/2) = .ok (.plainCopy [⟨0, 5⟩]) :=
  ⟨c5_nonpositive_period.1 [⟨0, 5⟩] (-1) (1/2) (by norm_num),
   c5_nonpositive_period.2 [⟨0, 5⟩] (1/2)⟩

/-- C4 counterexample: the claim states that when the second half of the
window has the lower mean, the candidate offsets lie in [0.5, 1.0).  For the
window [10, 10, 0, 0] (second half lower) the code searches [0.0, 0.5]
instead: the candidate list contains 0, which is not in [0.5, 1.0). -/
theorem c4_counterexample :
    phaseCandidateFractions [10, 10, 0, 0] 5 = [0, 1/8, 1/4, 3/8, 1/2] ∧
    ¬ (∀ f ∈ phaseCandidateFractions [10, 10, 0, 0] 5, 1/2 ≤ f ∧ f < 1) := by
  have hlist : phaseCandidateFractions [10, 10, 0, 0] 5 = [0, 1/8, 1/4, 3/8, 1/2] := by
    norm_num [phaseCandidateFractions, phaseStartFraction, firstHalf, secondHalf,
      average, linspace, List.range_succ]
  refine ⟨hlist, fun hall => ?_⟩
  have h0 := hall 0 (by rw [hlist]; exact List.mem_cons_self _ _)
  exact absurd h0.1 (by norm_num)

/-- C4 amended: when the mean of the second half of the window is higher than
that of the first half, the segmenter evaluates 5 evenly spaced candidate
offsets spanning [0.5, 1.0] with both endpoints included; otherwise it spans
[0.0, 0.5] with both endpoints included; and it returns the slices of a
candidate offset whose pooled variance over all slice values is maximal
(the first such candidate).  The hypotheses keep the slice list of every candidate
nonempty, matching the regime in which numpy variance is a real number. -/
theorem c4_phase_search (values : List ℚ) (period_length : ℕ)
    (_hpl : 1 ≤ period_length) (_hlen : 2 * period_length ≤ values.length) :
    (average (firstHalf values) < average (secondHalf values) →
       phaseCandidateFractions values 5 = [1/2, 5/8, 3/4, 7/8, 1]) ∧
    (¬ average (firstHalf values) < average (secondHalf values) →
       phaseCandidateFractions values 5 = [0, 1/8, 1/4, 3/8, 1/2]) ∧
    (∃ f ∈ phaseCandidateFractions values 5,
       find_period_slices_with_greatest_average_variance values period_length 5 =
         (candidateResult values period_length f).1 ∧
       ∀ f2 ∈ phaseCandidateFractions values 5,
         (candidateResult values period_length f2).2 ≤
           (candidateResult values period_length f).2) := by
  refine ⟨?_, ?_, ?_⟩
  · intro hc
    rw [phaseCandidateFractions, phaseStartFraction, if_pos hc]
    norm_num [linspace, List.range_succ]
  · intro hc
    rw [phaseCandidateFractions, phaseStartFraction, if_neg hc]
    norm_num [linspace, List.range_succ]
  · obtain ⟨f0, rest, hL⟩ : ∃ f0 rest, phaseCandidateFractions values 5 = f0 :: rest := by
      have hlen5 : (phaseCandidateFractions values 5).length = 5 := by
        rw [phaseCandidateFractions, linspace, List.length_map]
        rfl
      cases hcl : phaseCandidateFractions values 5 with
      | nil => rw [hcl] at hlen5; simp at hlen5
      | cons a l => exact ⟨a, l, rfl⟩
    set g := candidateResult values period_length with hg
    have hfind : find_period_slices_with_greatest_average_variance values period_length 5
        = (rest.foldl (fun bb f => if (g f).2 > bb.2 then g f else bb) (g f0)).1 := by
      rw [find_period_slices_with_greatest_average_variance, hL, List.foldl_cons]
      have h0 : pickBest g none f0 = some (g f0) := rfl
      rw [h0, foldl_pickBest_some]
    obtain ⟨hcase, hb0, hall⟩ := foldl_best_spec g rest (g f0)
    set r := rest.foldl (fun bb f => if (g f).2 > bb.2 then g f else bb) (g f0) with hr
    have hex2 : ∃ f ∈ f0 :: rest, r = g f := by
      cases hcase with
      | inl heq => exact ⟨f0, List.mem_cons_self _ _, heq⟩
      | inr hex =>
        obtain ⟨f, hf, heq⟩ := hex
        exact ⟨f, List.mem_cons_of_mem _ hf, heq⟩
    obtain ⟨f, hfmem, heq⟩ := hex2
    refine ⟨f, by rw [hL]; exact hfmem, by rw [hfind, heq], ?_⟩
    intro f2 hf2
    rw [hL] at hf2
    rw [← heq]
    rcases List.mem_cons.mp hf2 with hh | hh
    · rw [hh]
      exact hb0
    · exact hall f2 hh

/-- C4 witness: concrete windows exercising both branch directions and the
argmax selection. -/
theorem c4_witness :
    phaseCandidateFractions [0, 0, 10, 10] 5 = [1/2, 5/8, 3/4, 7/8, 1] ∧
    phaseCandidateFractions [10, 10, 0, 0] 5 = [0, 1/8, 1/4, 3/8, 1/2] ∧
    (∃ f ∈ phaseCandidateFractions [10, 10, 0, 0] 5,
       find_period_slices_with_greatest_average_variance [10, 10, 0, 0] 1 5 =
         (candidateResult [10, 10, 0, 0] 1 f).1 ∧
       ∀ f2 ∈ phaseCandidateFractions [10, 10, 0, 0] 5,
         (candidateResult [10, 10, 0, 0] 1 f2).2 ≤ (candidateResult [10, 10, 0, 0] 1 f).2) :=
  ⟨(c4_phase_search [0, 0, 10, 10] 1 (by norm_num) (by norm_num)).1
     (by norm_num [firstHalf, secondHalf, average]),
   (c4_phase_search [10, 10, 0, 0] 1 (by norm_num) (by norm_num)).2.1
     (by norm_num [firstHalf, secondHalf, average]),
   (c4_phase_search [10, 10, 0, 0] 1 (by norm_num) (by norm_num)).2.2⟩

/-- C6 counterexample: the claim states that with at least 11 history entries
the VAE baseline is the mean over exactly the 10 entries preceding the most
recent one.  The slice respiratory_cycle_data[-10:-1] holds only 9 entries:
on c6History the VAE score of the code is 50 while the claimed 10-entry baseline
would give 0, because the entry 10 places back (percentiles 110) is excluded
by the code but included by the claim. -/
theorem c6_counterexample :
    (calculate_scores c6History (some 4) 0).1 = 50 ∧
    claimedVaeScoreTen c6History = 0 ∧
    (calculate_scores c6History (some 4) 0).1 ≠ claimedVaeScoreTen c6History := by
  have h1 : (calculate_scores c6History (some 4) 0).1 = 50 := by
    norm_num [calculate_scores, vaeScoreOf, vaeRecentData, c6History, average, pyRound]
  have h2 : claimedVaeScoreTen c6History = 0 := by
    norm_num [claimedVaeScoreTen, claimedVaeRecentTen, lastN, c6History, average, pyRound]
  refine ⟨h1, h2, ?_⟩
  rw [h1, h2]
  norm_num

/-- C6 amended: with at least 10 history entries the VAE baseline averages
the 9 entries immediately preceding the most recent one (the last 10 entries
minus the current); with at most 10 entries it averages all prior entries;
with fewer than 3 entries the VAE component is 0. -/
theorem c6_vae_baseline :
    (∀ h : List RespiratoryCycleData, 10 ≤ h.length →
       vaeRecentData h = lastN 9 h.dropLast ∧ (vaeRecentData h).length = 9) ∧
    (∀ h : List RespiratoryCycleData, h.length ≤ 10 →
       vaeRecentData h = h.dropLast) ∧
    (∀ (h : List RespiratoryCycleData) (period : Option ℚ) (first_time : ℚ),
       h.length < 3 → (calculate_scores h period first_time).1 = 0) := by
  refine ⟨?_, ?_, ?_⟩
  · intro h hlen
    constructor
    · rw [vaeRecentData, lastN, dropLast_drop_comm]
      congr 1
      rw [List.length_dropLast]
      omega
    · rw [vaeRecentData, List.length_dropLast, List.length_drop]
      omega
  · intro h hlen
    rw [vaeRecentData, Nat.sub_eq_zero_of_le hlen, List.drop_zero]
  · intro h period first_time hlen
    show vaeScoreOf h = 0
    rw [vaeScoreOf, if_neg (by omega : ¬ 2 < h.length)]

/-- C6 witness: the three regimes at concrete histories. -/
theorem c6_witness :
    (vaeRecentData c6History = lastN 9 c6History.dropLast ∧
     (vaeRecentData c6History).length = 9) ∧
    vaeRecentData [⟨0, 0, 0, 0, 0, 4⟩, ⟨0, 0, 0, 0, 4, 4⟩] =
      List.dropLast [⟨0, 0, 0, 0, 0, 4⟩, ⟨0, 0, 0, 0, 4, 4⟩] ∧
    (calculate_scores [⟨0, 0, 0, 0, 0, 4⟩] (some 4) 0).1 = 0 :=
  ⟨c6_vae_baseline.1 c6History (by simp [c6History]),
   c6_vae_baseline.2.1 [⟨0, 0, 0, 0, 0, 4⟩, ⟨0, 0, 0, 0, 4, 4⟩] (by simp),
   c6_vae_baseline.2.2 [⟨0, 0, 0, 0, 0, 4⟩] (some 4) 0 (by simp)⟩

/-- C7: a push whose timestamp does not strictly exceed the last stored
timestamp always fails with the ordering assertion when the discard flag is
off, and with the flag on it succeeds while leaving the whole state (queue
contents and filled flag) unchanged. -/
theorem c7_push_out_of_order (st : TimeValueSampleQueue) (sample : TimeValueSample)
    (hne : st.queue ≠ []) (hle : sample.t ≤ lastT st.queue) :
    st.push sample false = .error "Samples are not monotonically increasing in time" ∧
    st.push sample true = .ok st := by
  have hooo : (!st.queue.isEmpty && decide (sample.t ≤ lastT st.queue)) = true := by
    simp [hne, hle]
  constructor
  · simp [TimeValueSampleQueue.push, hooo]
  · simp [TimeValueSampleQueue.push, hooo]

/-- C7 witness: pushing a tied timestamp into a one-sample queue. -/
theorem c7_witness :
    TimeValueSampleQueue.push ⟨10, [⟨5, 1⟩], false⟩ ⟨5, 2⟩ false =
      .error "Samples are not monotonically increasing in time" ∧
    TimeValueSampleQueue.push ⟨10, [⟨5, 1⟩], false⟩ ⟨5, 2⟩ true =
      .ok ⟨10, [⟨5, 1⟩], false⟩ :=
  c7_push_out_of_order ⟨10, [⟨5, 1⟩], false⟩ ⟨5, 2⟩ (by simp)
    (by norm_num [lastT])

/-- Concrete operation trace for the C8 witness: the third push evicts, the
clear resets the filled flag, the final push leaves an unfilled buffer. -/
def c8Ops : List QueueOp :=
  [.push ⟨0, 1⟩ false, .push ⟨20, 2⟩ false, .clearOp, .push ⟨30, 3⟩ false]

/-- C8: starting from a fresh queue, after every successful operation trace
the buffer span (newest minus oldest timestamp) is at most the configured
duration, and the filled flag equals the tracked boolean that is set exactly
when a push has evicted at least one sample since construction or the last
clear. -/
theorem c8_span_and_filled (d : ℚ) (ops : List QueueOp) (st : TimeValueSampleQueue)
    (h : runOps (initQueue d) ops = .ok st) :
    (st.queue = [] ∨ lastT st.queue - headT st.queue ≤ st.duration) ∧
    runOpsTracked (initQueue d) false ops = .ok (st, st.filled) :=
  runOps_tracked_correct ops (initQueue d) false st (Or.inl rfl) rfl h

/-- C8 witness: a concrete trace with an eviction and a clear. -/
theorem c8_witness :
    ((⟨10, [⟨30, 3⟩], false⟩ : TimeValueSampleQueue).queue = [] ∨
     lastT (⟨10, [⟨30, 3⟩], false⟩ : TimeValueSampleQueue).queue -
       headT (⟨10, [⟨30, 3⟩], false⟩ : TimeValueSampleQueue).queue ≤
       (⟨10, [⟨30, 3⟩], false⟩ : TimeValueSampleQueue).duration) ∧
    runOpsTracked (initQueue 10) false c8Ops = .ok (⟨10, [⟨30, 3⟩], false⟩, false) :=
  c8_span_and_filled 10 c8Ops ⟨10, [⟨30, 3⟩], false⟩
    (by norm_num [c8Ops, runOps, applyOp, TimeValueSampleQueue.push,
      TimeValueSampleQueue.clearAll, initQueue, evict, lastT, headT])

/-- C9: for a candidate cycle, if some stored entry is coincident with the
candidate start timestamp (the timestamps differ by less than half the stored
cycle duration) the history is left unchanged, keeping the earlier entry;
if no stored entry is coincident, the candidate is appended (trimmed only
from the oldest end) and becomes the newest entry. -/
theorem c9_history_dedup (h : List RespiratoryCycleData) (cand : RespiratoryCycleData) :
    ((∃ d ∈ h, d.is_timestamp_coincident cand.timestamp = true) →
       storeCandidate h cand = h) ∧
    ((∀ d ∈ h, d.is_timestamp_coincident cand.timestamp = false) →
       storeCandidate h cand = trimExcess (h ++ [cand]) ∧
       (storeCandidate h cand).getLast? = some cand) := by
  constructor
  · rintro ⟨d, hd, hcoin⟩
    have hany : (h.reverse.any fun d => d.is_timestamp_coincident cand.timestamp) = true :=
      List.any_eq_true.mpr ⟨d, List.mem_reverse.mpr hd, hcoin⟩
    rw [storeCandidate, if_pos hany]
  · intro hall
    have hany : (h.reverse.any fun d => d.is_timestamp_coincident cand.timestamp) = false := by
      rw [List.any_eq_false]
      intro d hd
      rw [hall d (List.mem_reverse.mp hd)]
      simp
    have hcond : ¬ ((h.reverse.any fun d => d.is_timestamp_coincident cand.timestamp) = true) := by
      rw [hany]
      simp
    constructor
    · rw [storeCandidate, if_neg hcond]
    · rw [storeCandidate, if_neg hcond, trimExcess_getLast?, List.getLast?_concat]

/-- C9 witness: a coincident candidate (gap 1 second, half period 2 seconds)
is dropped; a distant candidate (gap 10 seconds) is appended as newest. -/
theorem c9_witness :
    storeCandidate [⟨0, 0, 0, 0, 0, 4⟩] ⟨0, 0, 0, 0, 1, 4⟩ = [⟨0, 0, 0, 0, 0, 4⟩] ∧
    (storeCandidate [⟨0, 0, 0, 0, 0, 4⟩] ⟨0, 0, 0, 0, 10, 4⟩ =
       trimExcess ([⟨0, 0, 0, 0, 0, 4⟩] ++ [⟨0, 0, 0, 0, 10, 4⟩]) ∧
     (storeCandidate [⟨0, 0, 0, 0, 0, 4⟩] ⟨0, 0, 0, 0, 10, 4⟩).getLast? =
       some ⟨0, 0, 0, 0, 10, 4⟩) :=
  ⟨(c9_history_dedup [⟨0, 0, 0, 0, 0, 4⟩] ⟨0, 0, 0, 0, 1, 4⟩).1
     ⟨⟨0, 0, 0, 0, 0, 4⟩, List.mem_cons_self _ _,
      by norm_num [RespiratoryCycleData.is_timestamp_coincident]⟩,
   (c9_history_dedup [⟨0, 0, 0, 0, 0, 4⟩] ⟨0, 0, 0, 0, 10, 4⟩).2
     (by
       intro d hd
       rw [List.mem_singleton.mp hd]
       norm_num [RespiratoryCycleData.is_timestamp_coincident])⟩

/-- C10: copy_with treats an argument equal to 0 as absent, keeping the
original timestamp or value; consequently, in the metadata-alignment loop of
the resampling path, an output grid point whose resampled value is exactly 0
and which aligns with an original sample keeps the value of that original sample. -/
theorem c10_copy_with_zero :
    (∀ s : TimeValueSample, s.copy_with (some 0) none = s) ∧
    (∀ s : TimeValueSample, s.copy_with none (some 0) = s) ∧
    (∀ (dp t : ℚ) (rest : List (ℚ × ℚ)) (q0 : TimeValueSample)
       (qrest : List TimeValueSample),
       ¬ (q0.t < t - dp / 2) → q0.t < t + dp / 2 →
       (alignResampled dp ((0, t) :: rest) (q0 :: qrest)).head? =
         some (q0.copy_with (some t) (some 0)) ∧
       (q0.copy_with (some t) (some 0)).v = q0.v) := by
  refine ⟨?_, ?_, ?_⟩
  · intro s
    cases s
    simp [TimeValueSample.copy_with]
  · intro s
    cases s
    simp [TimeValueSample.copy_with]
  · intro dp t rest q0 qrest h1 h2
    have hp : decide (q0.t < t - dp / 2) = false := decide_eq_false h1
    constructor
    · rw [alignResampled]
      rw [List.dropWhile_cons_of_neg (by simp [hp])]
      show (if q0.t < t + dp / 2 then
              q0.copy_with (some t) (some 0) :: alignResampled dp rest qrest
            else ⟨t, 0⟩ :: alignResampled dp rest (q0 :: qrest)).head? =
          some (q0.copy_with (some t) (some 0))
      rw [if_pos h2]
      rfl
    · simp [TimeValueSample.copy_with]

/-- C10 witness: a zero new-time and a zero new-value keep the original
fields, and a zero resampled value aligned to an original keeps its value. -/
theorem c10_witness :
    (⟨3, 7⟩ : TimeValueSample).copy_with (some 0) none = ⟨3, 7⟩ ∧
    (⟨3, 7⟩ : TimeValueSample).copy_with none (some 0) = ⟨3, 7⟩ ∧
    ((alignResampled 1 [(0, 5)] [⟨5, 9⟩]).head? =
       some ((⟨5, 9⟩ : TimeValueSample).copy_with (some 5) (some 0)) ∧
     ((⟨5, 9⟩ : TimeValueSample).copy_with (some 5) (some 0)).v = 9) :=
  ⟨c10_copy_with_zero.1 ⟨3, 7⟩,
   c10_copy_with_zero.2.1 ⟨3, 7⟩,
   c10_copy_with_zero.2.2 1 5 [] ⟨5, 9⟩ [] (by norm_num) (by norm_num)⟩

end Impedance

